import Mathlib

namespace Twod

/-- 2-component integer coordinate pair, after `twod::Coordinates<int>`
(`src/unnamed/part_004`).  C++ `int` is modelled as unbounded `Int`; all
claim scenarios stay far below 32-bit limits, so wrap-around never matters. -/
structure Coordinates where
  x : Int
  y : Int
deriving DecidableEq, Repr

namespace Coordinates

/-- Source `Coordinates::Zero()` -/
def zero : Coordinates := ⟨0, 0⟩

/-- Component-wise addition, source `operator+` -/
def add (a b : Coordinates) : Coordinates := ⟨a.x + b.x, a.y + b.y⟩

/-- Component-wise subtraction, source `operator-` -/
def sub (a b : Coordinates) : Coordinates := ⟨a.x - b.x, a.y - b.y⟩

instance : Add Coordinates := ⟨add⟩

instance : Sub Coordinates := ⟨sub⟩

/-- Source `Coordinates::abs` : component-wise absolute value -/
def abs (a : Coordinates) : Coordinates := ⟨|a.x|, |a.y|⟩

/-- Source `Coordinates::all_ge` -/
def all_ge (a b : Coordinates) : Bool := a.x ≥ b.x ∧ a.y ≥ b.y

/-- Source `Coordinates::all_lt` -/
def all_lt (a b : Coordinates) : Bool := a.x < b.x ∧ a.y < b.y

/-- Source `Coordinates::all_le` -/
def all_le (a b : Coordinates) : Bool := a.x ≤ b.x ∧ a.y ≤ b.y

/-- Source `Coordinates::area` : product of components -/
def area (a : Coordinates) : Int := a.x * a.y

/-- Source `Coordinates::isZero` -/
def isZero (a : Coordinates) : Bool := a = zero

end Coordinates

/-- Grid access index pair, source `using Indices = Coordinates<int>` -/
abbrev Indices := Coordinates

/-- Grid sizing, source `using Extents = Coordinates<int>` -/
abbrev Extents := Coordinates

/-- Bounds object: an `(origin, extents)` pair.  The C++ code has four
structurally distinct variants (`Bounds`, `FixedOriginBounds`,
`FixedExtentsBounds`, `FixedOriginExtentsBounds`, `src/unnamed/part_005`)
that differ only in whether `origin`/`extents` are stored at run time or
baked in at compile time; all predicates (`within`, `overlaps`, `empty`,
`center`) are implemented once in `BoundsBase` purely in terms of
`origin()` and `extents()`, so one Lean structure quantifying over both
fields covers every variant. -/
structure Bounds where
  origin : Indices
  extents : Extents
deriving DecidableEq, Repr

namespace Bounds

/-- Source `BoundsBase::within`: `pt.all_ge(origin()) and pt.all_lt(origin() + extents())`. -/
def within (b : Bounds) (p : Indices) : Bool :=
  p.all_ge b.origin && p.all_lt (b.origin + b.extents)

/-- Source `BoundsBase::overlaps`:
`(origin() - other.origin()).abs().all_le(extents() + other.extents())`. -/
def overlaps (a b : Bounds) : Bool :=
  ((a.origin - b.origin).abs).all_le (a.extents + b.extents)

/-- Source `BoundsBase::empty`: `extents() == Extents::Zero()`. -/
def empty (b : Bounds) : Bool :=
  b.extents.isZero

end Bounds

/-- State of a `ColBoundsIterator` (`src/unnamed/part_005`): the current
point `pt_`, the saved bounds origin `origin_` and the saved
`past_corner_ = origin + extents`. -/
structure ColBoundsIter where
  pt : Indices
  orig : Indices
  past_corner : Indices
deriving DecidableEq, Repr

/-- Source `BoundsIteratorBase` initialization constructor:
`pt_{bounds.origin()}, origin_{pt_}, past_corner_{bounds.origin() + bounds.extents()}`. -/
def colBegin (b : Bounds) : ColBoundsIter :=
  ⟨b.origin, b.origin, b.origin + b.extents⟩

/-- Source `ColBoundsIterator::increment_impl`: `++pt_.x; if (pt_.x ==
past_corner_.x) { pt_.x = origin_.x; ++pt_.y; }`. -/
def colStep (it : ColBoundsIter) : ColBoundsIter :=
  if it.pt.x + 1 = it.past_corner.x then
    ⟨⟨it.orig.x, it.pt.y + 1⟩, it.orig, it.past_corner⟩
  else
    ⟨⟨it.pt.x + 1, it.pt.y⟩, it.orig, it.past_corner⟩

/-- Source `ColBoundsIterator::eq_end_impl` (comparison against the
`BoundsIteratorEnd` sentinel): `pt_.y == past_corner_.y`. -/
def colAtEnd (it : ColBoundsIter) : Bool :=
  it.pt.y == it.past_corner.y

/-- Iterator state after `k` increments from `colBegin b`. -/
def colIter (b : Bounds) (k : Nat) : ColBoundsIter :=
  colStep^[k] (colBegin b)

/-- Owned `Grid<CellT, AllocatorT>` (`src/unnamed/part_006`), modelled by
its extents (its bounds type is `FixedOriginBounds<0, 0>`, so the origin
is always `(0,0)`), its heap block (`data_`, whose pointer identity is
modelled as `Option Nat`, `none` standing for `nullptr`), and the cell
contents of that block in row-major order.  The allocator is modelled
abstractly: an allocation returns a caller-chosen fresh nonzero id, and a
zero-area allocation returns `none`, so that `data_ == nullptr ↔ extents
== Zero` holds in every constructor-reachable state. -/
structure GridM (α : Type) where
  extents : Extents
  ptr : Option Nat
  cells : List α
deriving DecidableEq, Repr

/-- Origin of `Grid` / `MappedGrid` / `FixedGrid` (all use bounds with
origin fixed at `(0, 0)`). -/
def gridOrigin : Indices := Coordinates.zero

/-- Source `RawAccessBase::toLinearIndex`:
`(derived()->extents().x * pt.y) + pt.x`. -/
def toLinearIndex (e : Extents) (pt : Indices) : Int := e.x * pt.y + pt.x

namespace GridM

/-- Default-constructed grid: `GBase{Extents::Zero()}, StorageBase{nullptr}`. -/
def defaultGrid (α : Type) : GridM α := ⟨Coordinates.zero, none, []⟩

/-- Read through `RawAccessBase::access_impl`: `data_[toLinearIndex(pt)]`. -/
def accessRead [Inhabited α] (g : GridM α) (pt : Indices) : α :=
  g.cells.getD (toLinearIndex g.extents pt).toNat default

/-- Write through the reference returned by `RawAccessBase::access_impl`. -/
def accessWrite (g : GridM α) (pt : Indices) (v : α) : GridM α :=
  { g with cells := g.cells.set (toLinearIndex g.extents pt).toNat v }

/-- Source `GridBase::operator[]` (read): `access_impl(pt + this->origin())`. -/
def get [Inhabited α] (g : GridM α) (pt : Indices) : α :=
  accessRead g (pt + gridOrigin)

/-- Source `GridBase::operator[]` (write through the returned reference). -/
def set (g : GridM α) (pt : Indices) (v : α) : GridM α :=
  accessWrite g (pt + gridOrigin) v

/-- Source `Grid::clear`: early-return when `data_ == nullptr`; otherwise
destroy the cells, deallocate the block, null `data_` and zero the
extents. -/
def clear (g : GridM α) : GridM α :=
  match g.ptr with
  | none => g
  | some _ => ⟨Coordinates.zero, none, []⟩

/-- Source `Grid::resize(const Extents&)` (the overload without a fill
value): `clear()` when the target `isZero()`; plain `return` when the
target equals the current extents; otherwise clear, set the new extents,
allocate a fresh block (`fresh` is the id the abstract allocator hands
back) and default-construct every cell (`allocator_.construct(d)` with no
arguments value-initializes, modelled by `default`). -/
def resize [Inhabited α] (g : GridM α) (e : Extents) (fresh : Nat) : GridM α :=
  if e.isZero then g.clear
  else if g.extents = e then g
  else ⟨e, some fresh, List.replicate e.area.toNat (default : α)⟩

end GridM

/-- Externally `MappedGrid<CellT>` (`src/unnamed/part_006`): extents plus
a non-owning raw pointer to caller memory (pointer identity modelled as a
`Nat` id).  `MappedGrid` never allocates or deallocates. -/
structure MappedGridM where
  extents : Extents
  data : Nat
deriving DecidableEq, Repr

/-- Source `RawAccessBase::swap` specialized to `MappedGrid` (whose
`swap_resize_impl` exchanges the two extents): the pointers are saved,
`swap_resize_impl(other)` exchanges the extents, then the saved pointers
are exchanged.  Returns the pair (this-after, other-after). -/
def mappedSwap (a b : MappedGridM) : MappedGridM × MappedGridM :=
  let other_data := b.data
  let this_data := a.data
  let a1 : MappedGridM := ⟨b.extents, a.data⟩
  let b1 : MappedGridM := ⟨a.extents, b.data⟩
  (⟨a1.extents, other_data⟩, ⟨b1.extents, this_data⟩)

/-- Element read of a `View` over an owned grid (`src/unnamed/part_006`):
`GridBase::operator[]` on the view is `access_impl(pt + origin())` with
the view bounds' origin, and `View::access_impl(q)` is
`parent_->operator[](q)`; the single `Bounds` model again covers all four
view bounds variants. -/
def viewGet [Inhabited α] (g : GridM α) (b : Bounds) (pt : Indices) : α :=
  g.get (pt + b.origin)

/-- Element write of a `View` over an owned grid, through the reference
chain `View::operator[] → View::access_impl → parent::operator[]`: the
parent's storage itself is updated (the view owns no cells). -/
def viewSet (g : GridM α) (b : Bounds) (pt : Indices) (v : α) : GridM α :=
  g.set (pt + b.origin) v

/-- One `Tile<TileGrid>` of a `FixedTiledGrid` (`src/include/tiled_grid.h`):
`data` models the `std::unique_ptr<TileGrid>` (a `TileHeight × TileWidth`
`FixedGrid` stored row-major, `none` = not yet materialized) and `origin`
the tile's top-left corner in parent coordinates. -/
structure TileM (α : Type) where
  data : Option (List α)
  origin : Indices
deriving DecidableEq, Repr

/-- State of a `FixedTiledGrid<CellT, Height, Width, TileHeight, TileWidth>`:
the configured default value and the `TileRows × TileCols` tile array
(`FixedGrid<TileType, TileRows, TileCols>`, row-major).  The compile-time
template parameters `Height`, `TileHeight`, `TileWidth` are passed
explicitly to each operation. -/
structure TiledGridM (α : Type) where
  default_value : α
  tiles : List (TileM α)
deriving DecidableEq, Repr

/-- Source constructor `FixedTiledGrid(const CellT& default_value)`:
every tile default-constructed (`data = nullptr`, `origin = Zero`),
`TileRows = Height / TileHeight`, `TileCols = Width / TileWidth`. -/
def mkTiled (H W TH TW : Nat) (d : α) : TiledGridM α :=
  ⟨d, List.replicate ((H / TH) * (W / TW)) ⟨none, Coordinates.zero⟩⟩

/-- Source `const Indices tile_pt{pt.x / TileHeight, pt.y / TileWidth}`;
C++ `int` division truncates toward zero, hence `Int.tdiv`. -/
def tilePt (TH TW : Nat) (pt : Indices) : Indices :=
  ⟨pt.x.tdiv TH, pt.y.tdiv TW⟩

/-- Linear index of `tiles_[tile_pt]`: the tile array is a
`FixedGrid<TileType, TileRows, TileCols>` with `extents().x = TileRows =
Height / TileHeight`, so `ContainerAccessBase::toLinearIndex` gives
`TileRows * tile_pt.y + tile_pt.x` (after `GridBase::operator[]` adds the
zero origin). -/
def tileIndex (H TH TW : Nat) (pt : Indices) : Nat :=
  (((H / TH : Nat) : Int) * (tilePt TH TW pt).y + (tilePt TH TW pt).x).toNat

/-- The `data` member of the tile owning `pt`. -/
def tileData (H TH TW : Nat) (g : TiledGridM α) (pt : Indices) : Option (List α) :=
  (g.tiles.getD (tileIndex H TH TW pt) ⟨none, Coordinates.zero⟩).data

/-- Source `FixedTiledGrid::access_impl(pt) const` (the const access
path): if the owning tile has data, read
`tile.data->operator[](pt - tile.origin)` (a `TileHeight × TileWidth`
`FixedGrid`, zero origin, `toLinearIndex` stride `TileHeight`); otherwise
return `default_value_` without materializing anything. -/
def readCell (H TH TW : Nat) (g : TiledGridM α) (pt : Indices) : α :=
  match g.tiles.getD (tileIndex H TH TW pt) ⟨none, Coordinates.zero⟩ with
  | ⟨some cells, o⟩ =>
    cells.getD (toLinearIndex ⟨(TH : Int), (TW : Int)⟩ ((pt - o) + gridOrigin)).toNat
      g.default_value
  | ⟨none, _⟩ => g.default_value

/-- Source `FixedTiledGrid::access_impl(pt)` (mutable) followed by a
store through the returned reference: if the owning tile has no data, set
`tile.origin = (tile_pt.x * TileHeight, tile_pt.y * TileWidth)` and
materialize `tile.data` as a tile grid filled with `default_value_`; then
write `v` into `tile.data->operator[](pt - tile.origin)`. -/
def writeCell (H TH TW : Nat) (g : TiledGridM α) (pt : Indices) (v : α) : TiledGridM α :=
  match g.tiles.getD (tileIndex H TH TW pt) ⟨none, Coordinates.zero⟩ with
  | ⟨some cells, o⟩ =>
    ⟨g.default_value,
     g.tiles.set (tileIndex H TH TW pt)
       ⟨some (cells.set
          (toLinearIndex ⟨(TH : Int), (TW : Int)⟩ ((pt - o) + gridOrigin)).toNat v), o⟩⟩
  | ⟨none, _⟩ =>
    ⟨g.default_value,
     g.tiles.set (tileIndex H TH TW pt)
       ⟨some ((List.replicate (TH * TW) g.default_value).set
          (toLinearIndex ⟨(TH : Int), (TW : Int)⟩
            ((pt - ⟨(tilePt TH TW pt).x * (TH : Int),
                    (tilePt TH TW pt).y * (TW : Int)⟩) + gridOrigin)).toNat v),
        ⟨(tilePt TH TW pt).x * (TH : Int), (tilePt TH TW pt).y * (TW : Int)⟩⟩⟩

/-- Source `FixedTiledGrid::active`: `std::count_if` of tiles whose
`data` converts to `true` (is non-null). -/
def activeT (g : TiledGridM α) : Nat :=
  g.tiles.countP (fun t => t.data.isSome)

/-- Modelled from the spec: the free `intersection(a, b)` operation is code
of this repository that is missing from `src/` — only its tests
(`src/unnamed/part_007`, `TEST(Intersection, ...)`) call it.  Following
the spec's words (§4.1): the result represents the overlapping index
rectangle — its origin is the component-wise max of the two origins and
its corner the component-wise min of the two corners — and when the two
bounds do not overlap at all the result is a degenerate, position-
preserving empty region: zero extents anchored at that same corner point
(the larger object's intruding corner in the spec's scenario, matching
the `Intersection.NonOverlapping` and `Intersection.OverlappingPoint`
test expectations). -/
def intersection (a b : Bounds) : Bounds :=
  if (⟨max a.origin.x b.origin.x, max a.origin.y b.origin.y⟩ : Indices).all_lt
       ⟨min (a.origin.x + a.extents.x) (b.origin.x + b.extents.x),
        min (a.origin.y + a.extents.y) (b.origin.y + b.extents.y)⟩ then
    ⟨⟨max a.origin.x b.origin.x, max a.origin.y b.origin.y⟩,
     ⟨min (a.origin.x + a.extents.x) (b.origin.x + b.extents.x) -
        max a.origin.x b.origin.x,
      min (a.origin.y + a.extents.y) (b.origin.y + b.extents.y) -
        max a.origin.y b.origin.y⟩⟩
  else
    ⟨⟨max a.origin.x b.origin.x, max a.origin.y b.origin.y⟩, Coordinates.zero⟩

/-- Source `SparseCell<int>` (`src/unnamed/part_004`): a `(value,
position)` pair; `operator<` compares by value only, and conversions
yield the position or the value. -/
structure SparseCellI where
  value : Int
  position : Indices
deriving DecidableEq, Repr

/-- The offsets enumerated by
`make_col_bounds_range(FixedOriginExtentsBounds<-1, -1, 3, 3>{})` in
`flood_fill` (`src/README.md`): the nine points of the 3×3 box around the
origin in column-major order, generated by the very bounds-iterator model
proved above (x fastest: (-1,-1), (0,-1), (1,-1), (-1,0), ...). -/
def neighborOffsets : List Indices :=
  (List.range 9).map (fun k => (colIter ⟨⟨-1, -1⟩, ⟨3, 3⟩⟩ k).pt)

/-- Model of `std::priority_queue` on `SparseCell` with the default
`std::less` comparator (which compares values only): `top()`/`pop()`
remove a maximal-valued element.  Which of several equal-valued elements
sits on top is unspecified in C++ (heap order); this model removes the
earliest-pushed maximal element.  For the C1 scenario the final grid does
not depend on the tie order: equal-valued seeds write the same propagated
value, and a cell is only ever written while it still holds 0. -/
def popMax : List SparseCellI → Option (SparseCellI × List SparseCellI)
  | [] => none
  | x :: xs =>
    match popMax xs with
    | none => some (x, [])
    | some (m, rest) => if m.value > x.value then some (m, x :: rest) else some (x, xs)

/-- Source `flood_fill` main loop (`src/README.md` lines 95-116): pop the
maximal seed, compute `next_value = value_updater(curr)`, and for each of
the nine 3×3 offsets in column-major order, if the neighbor is within the
grid and the expansion validator accepts the *current* cell there, push
`(next_value, next_position)` and write `next_value` into the grid.
`fuel` bounds the number of loop iterations; `none` means the fuel ran
out (the C++ loop would still be running). -/
def floodLoop (updater : SparseCellI → Int) (validator : SparseCellI → Bool) :
    Nat → GridM Int → List SparseCellI → Option (GridM Int)
  | 0, _, _ => none
  | fuel + 1, g, q =>
    match popMax q with
    | none => some g
    | some (curr, rest) =>
      let next_value := updater curr
      let step := neighborOffsets.foldl
        (fun (s : GridM Int × List SparseCellI) offset =>
          let next_position := curr.position + offset
          if (Bounds.mk Coordinates.zero s.1.extents).within next_position
              && validator ⟨s.1.get next_position, next_position⟩ then
            (s.1.set next_position next_value, s.2 ++ [⟨next_value, next_position⟩])
          else s)
        (g, rest)
      floodLoop updater validator fuel step.1 step.2

/-- The cell scan order of `ColViewIterator` over a whole grid
(x fastest from `(0,0)`), used by the seed-harvesting `flood_fill`
overload. -/
def colScanPoints (e : Extents) : List Indices :=
  (List.range e.y.toNat).flatMap
    (fun y => (List.range e.x.toNat).map (fun x => ⟨(x : Int), (y : Int)⟩))

/-- Source `flood_fill` seed-harvesting overload (`src/README.md` lines
120-146): walk the grid with a `ColViewIterator`, collect `(*itr,
itr.coords())` for every cell accepted by the seed generator, then run
the main loop on that seed list. -/
def flood_fill (g : GridM Int) (seed_gen : Int → Bool)
    (updater : SparseCellI → Int) (validator : SparseCellI → Bool)
    (fuel : Nat) : Option (GridM Int) :=
  floodLoop updater validator fuel g
    ((colScanPoints g.extents).filterMap
      (fun pt => if seed_gen (g.get pt) then some ⟨g.get pt, pt⟩ else none))

/-- The C1 scenario's initial grid (`TEST(FloodFill,
DescendingFillFromCenter)`, `src/unnamed/part_008`): a 10×10 `Grid<int>`
(cells value-initialized to 0) with 10 written at the four center cells. -/
def c1Grid : GridM Int :=
  ((((⟨⟨10, 10⟩, some 1, List.replicate 100 0⟩ : GridM Int).set
    ⟨5, 4⟩ 10).set ⟨4, 5⟩ 10).set ⟨4, 4⟩ 10).set ⟨5, 5⟩ 10

/-- The C1 scenario run: seed generator `v > 0`, updater
`max(1, sc - 1)`, validator `sc == 0`, fuel 150 (the loop pops at most
one seed per cell write plus the four initial seeds, about 100). -/
def c1Result : Option (GridM Int) :=
  flood_fill c1Grid (fun v => v > 0) (fun sc => max 1 (sc.value - 1))
    (fun sc => sc.value == 0) 150

end Twod

namespace Twod

theorem coords_add_def (a b : Coordinates) : a + b = ⟨a.x + b.x, a.y + b.y⟩ := rfl

theorem coords_sub_def (a b : Coordinates) : a - b = ⟨a.x - b.x, a.y - b.y⟩ := rfl

theorem colIter_zero (b : Bounds) : colIter b 0 = colBegin b := rfl

theorem colIter_succ (b : Bounds) (k : Nat) :
    colIter b (k + 1) = colStep (colIter b k) :=
  Function.iterate_succ_apply' colStep k (colBegin b)

theorem colIter_orig (b : Bounds) (k : Nat) : (colIter b k).orig = b.origin := by
  induction k with
  | zero => rfl
  | succ k ih =>
    rw [colIter_succ]
    unfold colStep
    split <;> simpa using ih

theorem colIter_past (b : Bounds) (k : Nat) :
    (colIter b k).past_corner = b.origin + b.extents := by
  induction k with
  | zero => rfl
  | succ k ih =>
    rw [colIter_succ]
    unfold colStep
    split <;> simpa using ih

/-- Closed form for the point of the column-major iterator after `k`
increments, when the x-extent is positive: x advances fastest, wrapping
into the next y-row every `extents.x` increments. -/
theorem colIter_pt (b : Bounds) (hw : 0 < b.extents.x) (k : Nat) :
    (colIter b k).pt =
      ⟨b.origin.x + ((k % b.extents.x.toNat : Nat) : Int),
       b.origin.y + ((k / b.extents.x.toNat : Nat) : Int)⟩ := by
  have hwn : 0 < b.extents.x.toNat := by omega
  have hcast : (b.extents.x.toNat : Int) = b.extents.x := by omega
  induction k with
  | zero =>
    simp [colIter, colBegin]
  | succ k ih =>
    have hr : k % b.extents.x.toNat < b.extents.x.toNat := Nat.mod_lt _ hwn
    rw [colIter_succ]
    unfold colStep
    rw [ih, colIter_orig, colIter_past, coords_add_def]
    dsimp only
    by_cases hc : k % b.extents.x.toNat + 1 = b.extents.x.toNat
    · have hk1 : k + 1 = b.extents.x.toNat * (k / b.extents.x.toNat + 1) := by
        have hdm := Nat.div_add_mod k b.extents.x.toNat
        rw [Nat.mul_succ]
        omega
      have hmod : (k + 1) % b.extents.x.toNat = 0 := by
        rw [hk1, Nat.mul_mod_right]
      have hdiv : (k + 1) / b.extents.x.toNat = k / b.extents.x.toNat + 1 := by
        rw [hk1, Nat.mul_div_cancel_left _ hwn]
      have hcond : b.origin.x + ((k % b.extents.x.toNat : Nat) : Int) + 1 =
          b.origin.x + b.extents.x := by omega
      rw [if_pos hcond, hmod, hdiv]
      dsimp only
      simp only [Coordinates.mk.injEq]
      constructor <;> omega
    · have hk1 : k + 1 = b.extents.x.toNat * (k / b.extents.x.toNat) +
          (k % b.extents.x.toNat + 1) := by
        have hdm := Nat.div_add_mod k b.extents.x.toNat
        omega
      have hmod : (k + 1) % b.extents.x.toNat = k % b.extents.x.toNat + 1 := by
        rw [hk1, Nat.mul_add_mod, Nat.mod_eq_of_lt (by omega)]
      have hdiv : (k + 1) / b.extents.x.toNat = k / b.extents.x.toNat := by
        rw [hk1, Nat.mul_add_div hwn,
          Nat.div_eq_of_lt (show k % b.extents.x.toNat + 1 < b.extents.x.toNat by omega),
          Nat.add_zero]
      have hcond : ¬(b.origin.x + ((k % b.extents.x.toNat : Nat) : Int) + 1 =
          b.origin.x + b.extents.x) := by omega
      rw [if_neg hcond, hmod, hdiv]
      dsimp only
      simp only [Coordinates.mk.injEq]
      exact ⟨by push_cast; ring, trivial⟩

theorem getD_set_self (l : List α) (i : Nat) (h : i < l.length) (a d : α) :
    (l.set i a).getD i d = a := by
  induction l generalizing i with
  | nil => simp at h
  | cons x xs ih =>
    cases i with
    | zero => rfl
    | succ i =>
      simp only [List.set_cons_succ, List.getD_cons_succ]
      exact ih i (by simpa using h) 

/-- Linear index bound: a point within `(0,0)`-anchored extents `e` has
`0 ≤ toLinearIndex e q < e.area`. -/
theorem toLinearIndex_bounds (e q : Coordinates)
    (hq : (Bounds.mk Coordinates.zero e).within q = true) :
    0 ≤ toLinearIndex e q ∧ toLinearIndex e q < e.area := by
  simp only [Bounds.within, coords_add_def, Coordinates.all_ge, Coordinates.all_lt,
    Coordinates.zero, Bool.and_eq_true, decide_eq_true_eq] at hq
  obtain ⟨⟨hx0, hy0⟩, hx1, hy1⟩ := hq
  simp only [zero_add] at hx1 hy1
  have hex : 0 < e.x := lt_of_le_of_lt hx0 hx1
  constructor
  · have := mul_nonneg (le_of_lt hex) hy0
    simp only [toLinearIndex]
    omega
  · have h1 : e.x * q.y + q.x < e.x * (q.y + 1) := by
      rw [mul_add, mul_one]
      omega
    have h2 : e.x * (q.y + 1) ≤ e.x * e.y :=
      mul_le_mul_of_nonneg_left (by omega) (le_of_lt hex)
    simp only [toLinearIndex, Coordinates.area]
    omega

theorem coords_add_zero (a : Coordinates) : a + Coordinates.zero = a := by
  show Coordinates.add a Coordinates.zero = a
  simp [Coordinates.add, Coordinates.zero]

theorem int_coe_tdiv (a b : Nat) : (a : Int).tdiv (b : Int) = ((a / b : Nat) : Int) := rfl

theorem tileIndex_coe (H TH TW a b : Nat) :
    tileIndex H TH TW ⟨(a : Int), (b : Int)⟩ = (H / TH) * (b / TW) + (a / TH) := by
  simp only [tileIndex, tilePt, int_coe_tdiv]
  rw [show ((H / TH : Nat) : Int) * ((b / TW : Nat) : Int) + ((a / TH : Nat) : Int)
      = (((H / TH) * (b / TW) + a / TH : Nat) : Int) from by push_cast; ring]
  exact Int.toNat_natCast _

theorem countP_set_false_true (l : List β) (i : Nat) (dflt t : β) (p : β → Bool)
    (h : i < l.length) (h1 : p (l.getD i dflt) = false) (h2 : p t = true) :
    (l.set i t).countP p = l.countP p + 1 := by
  induction l generalizing i with
  | nil => simp at h
  | cons x xs ih =>
    cases i with
    | zero =>
      simp only [List.getD_cons_zero] at h1
      simp [List.countP_cons, h1, h2]
    | succ i =>
      simp only [List.getD_cons_succ] at h1
      simp only [List.set_cons_succ, List.countP_cons]
      rw [ih i (by simpa using h) h1]
      omega

theorem countP_set_true_true (l : List β) (i : Nat) (dflt t : β) (p : β → Bool)
    (h : i < l.length) (h1 : p (l.getD i dflt) = true) (h2 : p t = true) :
    (l.set i t).countP p = l.countP p := by
  induction l generalizing i with
  | nil => simp at h
  | cons x xs ih =>
    cases i with
    | zero =>
      simp only [List.getD_cons_zero] at h1
      simp [List.countP_cons, h1, h2]
    | succ i =>
      simp only [List.getD_cons_succ] at h1
      simp only [List.set_cons_succ, List.countP_cons]
      rw [ih i (by simpa using h) h1]

theorem linear_tile_bound (R C x y : Nat) (hx : x < R) (hy : y < C) :
    R * y + x < R * C := by
  calc R * y + x < R * (y + 1) := by rw [Nat.mul_succ]; omega
  _ ≤ R * C := Nat.mul_le_mul_left R hy

theorem writeCell_tiles_length (H TH TW : Nat) (g : TiledGridM α) (pt : Indices)
    (v : α) : (writeCell H TH TW g pt v).tiles.length = g.tiles.length := by
  rcases hget : g.tiles.getD (tileIndex H TH TW pt) ⟨none, Coordinates.zero⟩ with ⟨td, tog⟩
  cases td
  all_goals
    unfold writeCell
    rw [hget]
    dsimp only
    exact List.length_set ..

/-- A write with a not-yet-materialized owning tile materializes it and
bumps `active()` by exactly one. -/
theorem activeT_write_fresh (H TH TW : Nat) (g : TiledGridM α) (pt : Indices) (v : α)
    (hi : tileIndex H TH TW pt < g.tiles.length)
    (hnone : (g.tiles.getD (tileIndex H TH TW pt) ⟨none, Coordinates.zero⟩).data
      = none) :
    activeT (writeCell H TH TW g pt v) = activeT g + 1 := by
  rcases hget : g.tiles.getD (tileIndex H TH TW pt) ⟨none, Coordinates.zero⟩ with ⟨td, tog⟩
  rw [hget] at hnone
  simp only at hnone
  subst hnone
  unfold writeCell
  rw [hget]
  simp only [activeT]
  exact countP_set_false_true g.tiles _ ⟨none, Coordinates.zero⟩ _ _ hi
    (by rw [hget]; rfl) rfl

/-- A write whose owning tile is already materialized leaves `active()`
unchanged. -/
theorem activeT_write_materialized (H TH TW : Nat) (g : TiledGridM α) (pt : Indices)
    (v : α) (hi : tileIndex H TH TW pt < g.tiles.length)
    (hsome : (g.tiles.getD (tileIndex H TH TW pt) ⟨none, Coordinates.zero⟩).data.isSome
      = true) :
    activeT (writeCell H TH TW g pt v) = activeT g := by
  rcases hget : g.tiles.getD (tileIndex H TH TW pt) ⟨none, Coordinates.zero⟩ with ⟨td, tog⟩
  rw [hget] at hsome
  simp only [Option.isSome_iff_exists] at hsome
  obtain ⟨cells, hcells⟩ := hsome
  subst hcells
  unfold writeCell
  rw [hget]
  simp only [activeT]
  exact countP_set_true_true g.tiles _ ⟨none, Coordinates.zero⟩ _ _ hi
    (by rw [hget]; rfl) rfl

/-- After any write, the tile owning the written cell is materialized
(stated for any point `pt'` owned by the same tile). -/
theorem tileData_write_isSome (H TH TW : Nat) (g : TiledGridM α) (pt pt' : Indices)
    (v : α) (hi : tileIndex H TH TW pt < g.tiles.length)
    (hieq : tileIndex H TH TW pt' = tileIndex H TH TW pt) :
    (tileData H TH TW (writeCell H TH TW g pt v) pt').isSome = true := by
  rcases hget : g.tiles.getD (tileIndex H TH TW pt) ⟨none, Coordinates.zero⟩ with ⟨td, tog⟩
  cases td
  all_goals
    unfold writeCell tileData
    rw [hget, hieq]
    dsimp only
    rw [getD_set_self _ _ hi _ _]
  all_goals rfl

/-- Characterization of `BoundsBase::within` as component inequalities
(helper shared by several proofs). -/
theorem within_char (b : Bounds) (p : Indices) :
    b.within p = true ↔
      (b.origin.x ≤ p.x ∧ b.origin.y ≤ p.y ∧
       p.x < b.origin.x + b.extents.x ∧ p.y < b.origin.y + b.extents.y) := by
  simp only [Bounds.within, coords_add_def, Coordinates.all_ge,
    Coordinates.all_lt, Bool.and_eq_true, decide_eq_true_eq]
  tauto

end Twod

/-- C4: for every bounds object `b` (any of the four origin/extents
variants, all of which share `BoundsBase::within`) and every point `p`,
`b.within(p)` holds iff `b.origin() ≤ p` and `p < b.origin() + b.extents()`
component-wise. -/
theorem C4_bounds_within_iff (b : Twod.Bounds) (p : Twod.Indices) :
    b.within p = true ↔
      (b.origin.x ≤ p.x ∧ b.origin.y ≤ p.y ∧
       p.x < b.origin.x + b.extents.x ∧ p.y < b.origin.y + b.extents.y) := by
  simp only [Twod.Bounds.within, Twod.coords_add_def, Twod.Coordinates.all_ge,
    Twod.Coordinates.all_lt, Bool.and_eq_true, decide_eq_true_eq]
  tauto

/-- C5: for all bounds `a`, `b` (any variants), `a.overlaps(b)` holds iff
`|a.origin() - b.origin()| ≤ a.extents() + b.extents()` holds in each
component, with the comparison inclusive on both components. -/
theorem C5_bounds_overlaps_iff (a b : Twod.Bounds) :
    a.overlaps b = true ↔
      (|a.origin.x - b.origin.x| ≤ a.extents.x + b.extents.x ∧
       |a.origin.y - b.origin.y| ≤ a.extents.y + b.extents.y) := by
  simp only [Twod.Bounds.overlaps, Twod.coords_sub_def, Twod.coords_add_def,
    Twod.Coordinates.abs, Twod.Coordinates.all_le, Bool.and_eq_true, decide_eq_true_eq]

/-- C10: the `overlaps` predicate is symmetric: the implemented test
`|a.origin - b.origin| ≤ a.extents + b.extents` is invariant under
exchanging the two arguments, so `a.overlaps(b) == b.overlaps(a)` for all
bounds `a`, `b` of any variants. -/
theorem C10_bounds_overlaps_symm (a b : Twod.Bounds) :
    a.overlaps b = b.overlaps a := by
  simp only [Twod.Bounds.overlaps, Twod.coords_sub_def, Twod.coords_add_def,
    Twod.Coordinates.abs, Twod.Coordinates.all_le]
  rw [decide_eq_decide, abs_sub_comm, abs_sub_comm a.origin.y, add_comm a.extents.x,
    add_comm a.extents.y]

/-- C8 (amended): for every bounds object with non-negative extents such
that the x-extent is positive or the y-extent is zero, the column-major
bounds iterator started at the bounds yields exactly `extents().area()`
points before first comparing equal to the end sentinel; the `k`-th point
is `origin + (k mod extents.x, k div extents.x)` (x increments fastest,
wrapping to the next y exactly when x reaches `origin.x + extents.x`),
every yielded point satisfies `within`, and the iterator compares equal to
the end sentinel right after the last point.  (The unamended claim, which
also allowed `extents = (0, k)` with `k > 0`, fails: see the
counterexample theorem.) -/
theorem C8_col_bounds_iterator (b : Twod.Bounds)
    (hx0 : 0 ≤ b.extents.x) (hy0 : 0 ≤ b.extents.y)
    (hpos : 0 < b.extents.x ∨ b.extents.y = 0) :
    ((b.extents.x.toNat * b.extents.y.toNat : Nat) : Int) = b.extents.area ∧
    (∀ k : Nat, k < b.extents.x.toNat * b.extents.y.toNat →
        Twod.colAtEnd (Twod.colIter b k) = false ∧
        (Twod.colIter b k).pt =
          ⟨b.origin.x + ((k % b.extents.x.toNat : Nat) : Int),
           b.origin.y + ((k / b.extents.x.toNat : Nat) : Int)⟩ ∧
        b.within (Twod.colIter b k).pt = true) ∧
    Twod.colAtEnd (Twod.colIter b (b.extents.x.toNat * b.extents.y.toNat)) = true := by
  have harea : ((b.extents.x.toNat * b.extents.y.toNat : Nat) : Int) = b.extents.area := by
    simp only [Twod.Coordinates.area, Nat.cast_mul, Int.toNat_of_nonneg hx0,
      Int.toNat_of_nonneg hy0]
  rcases hpos with hw | hy
  · have hwn : 0 < b.extents.x.toNat := by omega
    have hxc : (b.extents.x.toNat : Int) = b.extents.x := by omega
    have hyc : (b.extents.y.toNat : Int) = b.extents.y := by omega
    refine ⟨harea, fun k hk => ?_, ?_⟩
    · have hdiv : k / b.extents.x.toNat < b.extents.y.toNat := by
        rw [Nat.mul_comm] at hk
        exact Nat.div_lt_iff_lt_mul hwn |>.mpr hk
      have hmod : k % b.extents.x.toNat < b.extents.x.toNat := Nat.mod_lt _ hwn
      refine ⟨?_, Twod.colIter_pt b hw k, ?_⟩
      · simp only [Twod.colAtEnd, Twod.colIter_pt b hw k, Twod.colIter_past,
          Twod.coords_add_def, beq_eq_false_iff_ne, ne_eq]
        revert hdiv
        generalize k / b.extents.x.toNat = q
        intro hdiv
        omega
      · rw [Twod.colIter_pt b hw k]
        simp only [Twod.Bounds.within, Twod.coords_add_def, Twod.Coordinates.all_ge,
          Twod.Coordinates.all_lt, Bool.and_eq_true, decide_eq_true_eq]
        revert hdiv hmod
        generalize k / b.extents.x.toNat = q
        generalize k % b.extents.x.toNat = r
        intro hdiv hmod
        exact ⟨⟨by omega, by omega⟩, by omega, by omega⟩
    · simp only [Twod.colAtEnd, Twod.colIter_pt b hw, Twod.colIter_past,
        Twod.coords_add_def, Nat.mul_mod_right, Nat.mul_div_cancel_left _ hwn,
        beq_iff_eq]
      omega
  · have hyn : b.extents.y.toNat = 0 := by omega
    refine ⟨harea, fun k hk => ?_, ?_⟩
    · rw [hyn, Nat.mul_zero] at hk
      exact absurd hk (Nat.not_lt_zero k)
    · rw [hyn, Nat.mul_zero]
      simp only [Twod.colIter_zero, Twod.colAtEnd, Twod.colBegin,
        Twod.coords_add_def, beq_iff_eq]
      omega

/-- C8 counterexample: the unamended claim quantifies over every bounds
object with non-negative extents, but for extents `(0, 1)` (area 0) the
column-major iterator starting at the bounds does not compare equal to the
end sentinel — so iteration "until it compares equal to the end sentinel"
yields at least one point although `extents().area() = 0` — and the point
it yields fails `within` for those bounds.  (In the C++ code the x
coordinate only ever increments and starts equal to `past_corner_.x`, so
it can never wrap and the iteration never terminates.) -/
theorem C8_col_bounds_iterator_counterexample :
    0 ≤ (Twod.Bounds.mk ⟨0, 0⟩ ⟨0, 1⟩).extents.x ∧
    0 ≤ (Twod.Bounds.mk ⟨0, 0⟩ ⟨0, 1⟩).extents.y ∧
    (Twod.Bounds.mk ⟨0, 0⟩ ⟨0, 1⟩).extents.area = 0 ∧
    Twod.colAtEnd (Twod.colIter ⟨⟨0, 0⟩, ⟨0, 1⟩⟩ 0) = false ∧
    (Twod.Bounds.mk ⟨0, 0⟩ ⟨0, 1⟩).within (Twod.colIter ⟨⟨0, 0⟩, ⟨0, 1⟩⟩ 0).pt
      = false := by
  decide

/-- C8 witness: the amended theorem applied to the concrete bounds
`origin (1,1), extents (2,3)`: after `2*3 = 6` increments the iterator is
at the end sentinel, and the point after 2 increments lies within the
bounds. -/
theorem C8_col_bounds_iterator_witness :
    Twod.colAtEnd (Twod.colIter ⟨⟨1, 1⟩, ⟨2, 3⟩⟩ 6) = true ∧
    Twod.Bounds.within ⟨⟨1, 1⟩, ⟨2, 3⟩⟩ (Twod.colIter ⟨⟨1, 1⟩, ⟨2, 3⟩⟩ 2).pt = true := by
  have h := C8_col_bounds_iterator ⟨⟨1, 1⟩, ⟨2, 3⟩⟩ (by decide) (by decide)
    (Or.inl (by decide))
  exact ⟨h.2.2, (h.2.1 2 (by decide)).2.2⟩

/-- C3: for every (owned) grid `g`, every view over `g` with bounds origin
`o` (any of the four bounds variants — the `Bounds` model covers them
all), and every view-local index `p` inside the view's extents whose
translation `p + o` is a valid parent index (unchecked access outside the
parent is undefined behaviour by the source's contract, so validity is a
precondition): a write through the view at `p` is read back through the
parent at `p + o`, and a write through the parent at `p + o` is read back
through the view at `p` — the view aliases the parent's storage rather
than copying it, since `viewSet` is by definition an update of the
parent's own cell list. -/
theorem C3_view_aliasing (α : Type) [Inhabited α] (g : Twod.GridM α)
    (b : Twod.Bounds) (p : Twod.Indices) (v w : α)
    (hlen : g.cells.length = g.extents.area.toNat)
    (hview : (Twod.Bounds.mk Twod.Coordinates.zero b.extents).within p = true)
    (hin : (Twod.Bounds.mk Twod.Coordinates.zero g.extents).within
      (p + b.origin) = true) :
    (Twod.viewSet g b p v).get (p + b.origin) = v ∧
    Twod.viewGet (g.set (p + b.origin) w) b p = w := by
  have hb := Twod.toLinearIndex_bounds g.extents ((p + b.origin) + Twod.gridOrigin)
    (by simp only [Twod.gridOrigin, Twod.coords_add_zero]; exact hin)
  have hidx : (Twod.toLinearIndex g.extents ((p + b.origin) + Twod.gridOrigin)).toNat
      < g.cells.length := by
    rw [hlen]
    omega
  constructor
  · simp only [Twod.viewSet, Twod.GridM.set, Twod.GridM.get, Twod.GridM.accessWrite,
      Twod.GridM.accessRead]
    exact Twod.getD_set_self _ _ hidx _ _
  · simp only [Twod.viewGet, Twod.GridM.set, Twod.GridM.get, Twod.GridM.accessWrite,
      Twod.GridM.accessRead]
    exact Twod.getD_set_self _ _ hidx _ _

/-- C3 witness: a 4×3 parent of zeros, a view anchored at `(1,1)` with
extents `(2,2)`, local index `(1,0)`: writing 7 through the view is read
at parent index `(2,1)`, and writing 9 through the parent is read through
the view. -/
theorem C3_view_aliasing_witness :
    (Twod.viewSet ⟨⟨4, 3⟩, some 1, List.replicate 12 (0 : Int)⟩
        ⟨⟨1, 1⟩, ⟨2, 2⟩⟩ ⟨1, 0⟩ 7).get (⟨1, 0⟩ + (⟨1, 1⟩ : Twod.Indices)) = 7 ∧
    Twod.viewGet ((⟨⟨4, 3⟩, some 1, List.replicate 12 (0 : Int)⟩ : Twod.GridM Int).set
        (⟨1, 0⟩ + (⟨1, 1⟩ : Twod.Indices)) 9) ⟨⟨1, 1⟩, ⟨2, 2⟩⟩ ⟨1, 0⟩ = 9 :=
  C3_view_aliasing Int ⟨⟨4, 3⟩, some 1, List.replicate 12 (0 : Int)⟩
    ⟨⟨1, 1⟩, ⟨2, 2⟩⟩ ⟨1, 0⟩ 7 9 (by decide) (by decide) (by decide)

/-- C6: for an owned `Grid` in a constructor-reachable state (its
`data_` is null exactly when its extents are zero, and a null grid holds
no cells): `resize` with extents equal to the current extents leaves the
grid — in particular the storage pointer `data()` — entirely unchanged
(no reallocation), and `resize` with zero extents frees the storage and
leaves the grid in the default-constructed state (`data() == nullptr`,
extents `(0,0)`). -/
theorem C6_grid_resize (α : Type) [Inhabited α] (g : Twod.GridM α) (fresh : Nat)
    (hwf : g.ptr = none ↔ g.extents = Twod.Coordinates.zero)
    (hcells : g.ptr = none → g.cells = []) :
    g.resize g.extents fresh = g ∧
    g.resize Twod.Coordinates.zero fresh = Twod.GridM.defaultGrid α := by
  constructor
  · simp only [Twod.GridM.resize]
    by_cases hz : g.extents = Twod.Coordinates.zero
    · rw [if_pos (by simp [Twod.Coordinates.isZero, hz])]
      have hp := hwf.mpr hz
      simp only [Twod.GridM.clear, hp]
    · rw [if_neg (by simp [Twod.Coordinates.isZero, hz])]
      simp
  · simp only [Twod.GridM.resize]
    rw [if_pos (by simp [Twod.Coordinates.isZero])]
    cases hp : g.ptr with
    | none =>
      obtain ⟨ge, gp, gc⟩ := g
      simp only at hp hwf hcells
      subst hp
      simp only [Twod.GridM.clear, Twod.GridM.defaultGrid]
      rw [hwf.mp rfl, hcells rfl]
    | some q =>
      simp only [Twod.GridM.clear, hp, Twod.GridM.defaultGrid]

/-- C6 witness: a concrete well-formed 2×3 grid of zeros with pointer id
1: resizing to its own extents returns it unchanged, and resizing to zero
extents yields the default-constructed grid. -/
theorem C6_grid_resize_witness :
    (Twod.GridM.resize ⟨⟨2, 3⟩, some 1, List.replicate 6 (0 : Int)⟩ ⟨2, 3⟩ 7
      = ⟨⟨2, 3⟩, some 1, List.replicate 6 (0 : Int)⟩) ∧
    (Twod.GridM.resize ⟨⟨2, 3⟩, some 1, List.replicate 6 (0 : Int)⟩
      Twod.Coordinates.zero 7 = Twod.GridM.defaultGrid Int) :=
  C6_grid_resize Int ⟨⟨2, 3⟩, some 1, List.replicate 6 (0 : Int)⟩ 7
    (by decide) (by decide)

/-- C9: `MappedGrid::swap` (via `RawAccessBase::swap` plus
`MappedGrid::swap_resize_impl`) exchanges the two grids' extents, and the
two resulting grids hold exactly the two caller-supplied memory pointers
(merely exchanged): no allocation or deallocation takes place — the model
of the operation involves no allocator at all — and ownership of the
mapped memory stays external for both grids, since `MappedGrid` never
owns its block. -/
theorem C9_mapped_swap_exchanges_extents (a b : Twod.MappedGridM) :
    Twod.mappedSwap a b = (⟨b.extents, b.data⟩, ⟨a.extents, a.data⟩) := rfl

/-- C2: for a `FixedTiledGrid` (tile dims positive and dividing the grid
dims, as valid instantiations require) in any state with the right number
of tiles: reading through the const access path any cell whose owning
tile is unmaterialized returns the configured default value (the const
path is a pure function of the state, so `active()` is unchanged by
construction); the first write to a cell of an unmaterialized tile
increases `active()` by exactly one; and a subsequent write to any cell
`(c,d)` of that same tile increases `active()` by zero (the total is
still `active(g) + 1`). -/
theorem C2_tiled_grid_active (α : Type) (H W TH TW : Nat) (g : Twod.TiledGridM α)
    (v u : α) (a b c d : Nat)
    (hTH : 0 < TH) (hTW : 0 < TW) (hH : TH ∣ H) (hW : TW ∣ W)
    (ha : a < H) (hb : b < W) (hc : c < H) (hd : d < W)
    (hsx : a / TH = c / TH) (hsy : b / TW = d / TW)
    (hlen : g.tiles.length = (H / TH) * (W / TW))
    (hnone : Twod.tileData H TH TW g ⟨(a : Int), (b : Int)⟩ = none) :
    Twod.readCell H TH TW g ⟨(a : Int), (b : Int)⟩ = g.default_value ∧
    Twod.activeT (Twod.writeCell H TH TW g ⟨(a : Int), (b : Int)⟩ v)
      = Twod.activeT g + 1 ∧
    Twod.activeT (Twod.writeCell H TH TW
        (Twod.writeCell H TH TW g ⟨(a : Int), (b : Int)⟩ v) ⟨(c : Int), (d : Int)⟩ u)
      = Twod.activeT g + 1 := by
  have hR : a / TH < H / TH := by
    rw [Nat.div_lt_iff_lt_mul hTH, Nat.div_mul_cancel hH]
    exact ha
  have hC : b / TW < W / TW := by
    rw [Nat.div_lt_iff_lt_mul hTW, Nat.div_mul_cancel hW]
    exact hb
  have hi : Twod.tileIndex H TH TW ⟨(a : Int), (b : Int)⟩ < g.tiles.length := by
    rw [Twod.tileIndex_coe, hlen]
    exact Twod.linear_tile_bound _ _ _ _ hR hC
  have hieq : Twod.tileIndex H TH TW ⟨(c : Int), (d : Int)⟩
      = Twod.tileIndex H TH TW ⟨(a : Int), (b : Int)⟩ := by
    rw [Twod.tileIndex_coe, Twod.tileIndex_coe, hsx, hsy]
  have hnone' : (g.tiles.getD (Twod.tileIndex H TH TW ⟨(a : Int), (b : Int)⟩)
      ⟨none, Twod.Coordinates.zero⟩).data = none := hnone
  refine ⟨?_, ?_, ?_⟩
  · rcases hget : g.tiles.getD (Twod.tileIndex H TH TW ⟨(a : Int), (b : Int)⟩)
        ⟨none, Twod.Coordinates.zero⟩ with ⟨td, tog⟩
    rw [hget] at hnone'
    simp only at hnone'
    subst hnone'
    unfold Twod.readCell
    rw [hget]
  · exact Twod.activeT_write_fresh H TH TW g _ v hi hnone'
  · have hi2 : Twod.tileIndex H TH TW ⟨(c : Int), (d : Int)⟩
        < (Twod.writeCell H TH TW g ⟨(a : Int), (b : Int)⟩ v).tiles.length := by
      rw [Twod.writeCell_tiles_length, hieq]
      exact hi
    have hsome := Twod.tileData_write_isSome H TH TW g ⟨(a : Int), (b : Int)⟩
      ⟨(c : Int), (d : Int)⟩ v hi hieq
    rw [Twod.activeT_write_materialized H TH TW _ _ u hi2 hsome]
    exact Twod.activeT_write_fresh H TH TW g _ v hi hnone'

/-- C2 witness: the test instantiation `FixedTiledGrid<int,20,20,5,5>`
with default value 1: cell `(5,5)` reads 1 off the fresh grid, the first
write to it bumps `active()` from 0 to 1, and a second write to `(6,7)`
(same tile `(1,1)`) leaves `active()` at 1. -/
theorem C2_tiled_grid_active_witness :
    Twod.readCell 20 5 5 (Twod.mkTiled 20 20 5 5 (1 : Int)) ⟨(5 : Int), (5 : Int)⟩
      = (Twod.mkTiled 20 20 5 5 (1 : Int)).default_value ∧
    Twod.activeT (Twod.writeCell 20 5 5 (Twod.mkTiled 20 20 5 5 (1 : Int))
        ⟨(5 : Int), (5 : Int)⟩ 6)
      = Twod.activeT (Twod.mkTiled 20 20 5 5 (1 : Int)) + 1 ∧
    Twod.activeT (Twod.writeCell 20 5 5
        (Twod.writeCell 20 5 5 (Twod.mkTiled 20 20 5 5 (1 : Int))
          ⟨(5 : Int), (5 : Int)⟩ 6) ⟨(6 : Int), (7 : Int)⟩ 9)
      = Twod.activeT (Twod.mkTiled 20 20 5 5 (1 : Int)) + 1 := by
  have h := C2_tiled_grid_active Int 20 20 5 5 (Twod.mkTiled 20 20 5 5 1) 6 9 5 5 6 7
    (by decide) (by decide) (by decide) (by decide) (by decide) (by decide)
    (by decide) (by decide) (by decide) (by decide) (by decide) (by decide)
  exact_mod_cast h

/-- C7: the free `intersection(a, b)` operation (modelled from the spec —
its implementation is not under `src/`, only its tests): it is
commutative, the bounds it returns contain exactly the points lying
within both arguments (so when the arguments overlap it is their
overlapping index rectangle, the same rectangle regardless of argument
order), and when the two bounds share no point at all it returns a
zero-extent bounds anchored at the corner point `(max of origins)` — the
degenerate, position-preserving empty region (the larger object's
intruding corner in the spec's non-overlap scenario). -/
theorem C7_intersection_spec (a b : Twod.Bounds) :
    Twod.intersection a b = Twod.intersection b a ∧
    (∀ p : Twod.Indices, (Twod.intersection a b).within p = true ↔
        (a.within p = true ∧ b.within p = true)) ∧
    ((¬ ∃ p : Twod.Indices, a.within p = true ∧ b.within p = true) →
      (Twod.intersection a b).extents = Twod.Coordinates.zero ∧
      (Twod.intersection a b).origin =
        ⟨max a.origin.x b.origin.x, max a.origin.y b.origin.y⟩) := by
  refine ⟨?_, ?_, ?_⟩
  · simp only [Twod.intersection, max_comm a.origin.x b.origin.x,
      max_comm a.origin.y b.origin.y,
      min_comm (a.origin.x + a.extents.x) (b.origin.x + b.extents.x),
      min_comm (a.origin.y + a.extents.y) (b.origin.y + b.extents.y)]
  · intro p
    unfold Twod.intersection
    split
    next h =>
      simp only [Twod.Coordinates.all_lt, Bool.and_eq_true, decide_eq_true_eq] at h
      rw [Twod.within_char, Twod.within_char, Twod.within_char]
      dsimp only
      omega
    next h =>
      simp only [Twod.Coordinates.all_lt, Bool.and_eq_true, decide_eq_true_eq,
        not_and_or, not_lt] at h
      rw [Twod.within_char, Twod.within_char, Twod.within_char]
      dsimp only
      simp only [Twod.Coordinates.zero]
      constructor
      · intro hcontra
        omega
      · intro hcontra
        omega
  · intro hdisj
    unfold Twod.intersection
    split
    next h =>
      exfalso
      simp only [Twod.Coordinates.all_lt, Bool.and_eq_true, decide_eq_true_eq] at h
      refine hdisj ⟨⟨max a.origin.x b.origin.x, max a.origin.y b.origin.y⟩, ?_, ?_⟩
      · rw [Twod.within_char]
        dsimp only
        omega
      · rw [Twod.within_char]
        dsimp only
        omega
    next h =>
      exact ⟨rfl, rfl⟩

/-- C7 witness: the `Intersection.NonOverlapping` test instance —
`FixedOriginExtentsBounds<0,0,5,5>` versus `<6,6,20,20>`: the two share
no point, and the intersection is the zero-extent bounds anchored at
`(6,6)`. -/
theorem C7_intersection_spec_witness :
    (Twod.intersection ⟨⟨0, 0⟩, ⟨5, 5⟩⟩ ⟨⟨6, 6⟩, ⟨20, 20⟩⟩).extents
      = Twod.Coordinates.zero ∧
    (Twod.intersection ⟨⟨0, 0⟩, ⟨5, 5⟩⟩ ⟨⟨6, 6⟩, ⟨20, 20⟩⟩).origin = ⟨6, 6⟩ := by
  have h := (C7_intersection_spec ⟨⟨0, 0⟩, ⟨5, 5⟩⟩ ⟨⟨6, 6⟩, ⟨20, 20⟩⟩).2.2
  have hd : ¬ ∃ p : Twod.Indices,
      Twod.Bounds.within ⟨⟨0, 0⟩, ⟨5, 5⟩⟩ p = true ∧
      Twod.Bounds.within ⟨⟨6, 6⟩, ⟨20, 20⟩⟩ p = true := by
    rintro ⟨p, hpa, hpb⟩
    rw [Twod.within_char] at hpa hpb
    dsimp only at hpa hpb
    omega
  have h2 := h hd
  exact ⟨h2.1, by rw [h2.2]; decide⟩

set_option maxRecDepth 100000 in
/-- C1: running `flood_fill` on the 10×10 integer grid that is 0
everywhere except 10 at the four center cells `(4,4),(4,5),(5,4),(5,5)`,
with value updater `max(1, v-1)`, expansion validator "current cell value
equals 0", seed generator `v > 0` and the default max-ordered seed queue,
terminates (the queue empties well within the 150-iteration fuel bound,
so the result is `some`) and leaves the four corner cells
`(0,0),(0,9),(9,0),(9,9)` each equal to 6. -/
theorem C1_flood_fill_corners :
    Twod.c1Result.map
      (fun g => (g.get ⟨0, 0⟩, g.get ⟨0, 9⟩, g.get ⟨9, 0⟩, g.get ⟨9, 9⟩))
      = some (6, 6, 6, 6) := by decide
